import Mathlib

/-!
Verification of `src/A_my_tools/json_to_autogen_py.py`, the JSON-to-Python
code generator (the repository's core per the specification).  The Python
data values that flow through the generator (the result of `json.loads`,
typed `Any` in the source) are embedded as the inductive type `PyVal`;
the generator's functions are translated one-to-one:

* `split_provider`   — `provider.rsplit(".", 1)` unpacked into `(mod, cls)`;
* `collect_providers` — the recursive walk collecting `"provider"` strings;
* `dict_to_python_literal` — the deterministic literal rendering
  (`pprint.pformat(..., sort_dicts=True)`);
* `EXPLICIT_CTORS` / `emit_builder` — the two-strategy body-code emitter;
* `generate` — `generate_python_from_json` after the file read and before
  the file write (the pure text-producing part).

Fallible steps return `Except PyError _`, with `PyError` naming the Python
exception classes the code can raise (and those named by the specification's
error taxonomy, so that claims about them are statable).
-/

namespace JsonGen

/-- A Python value as produced by `json.loads`, plus `other`: an arbitrary
non-JSON Python object carried by its `repr` string (the source's parameters
are typed `Any`).  Dicts are association lists of string keys, in insertion
order; `json.loads` never produces duplicate keys. -/
inductive PyVal : Type where
  | str (s : String)
  | int (n : Int)
  | bool (b : Bool)
  | null
  | list (xs : List PyVal)
  | dict (kvs : List (String × PyVal))
  | other (repr : String)

/-- The Python exceptions relevant here.  `valueError` and `attributeError`
are the ones the source can actually raise; `referenceError`,
`literalEmitError` and `templateError` are named by the specification's
taxonomy and included so that claims about them can be stated — the source
never raises them. -/
inductive PyError : Type where
  | valueError (msg : String)
  | attributeError (msg : String)
  | referenceError (msg : String)
  | literalEmitError (msg : String)
  | templateError (msg : String)
deriving DecidableEq, Repr

/-- Python `d.get(k)` / `d[k]` on an insertion-ordered dict: the value of the
first (and in a real dict, only) binding of `k`. -/
def dictGet (kvs : List (String × PyVal)) (k : String) : Option PyVal :=
  match kvs with
  | [] => Option.none
  | (k', v) :: rest => if k' = k then Option.some v else dictGet rest k

/-- Split a character list at its LAST `'.'`: `none` when no dot occurs,
otherwise `(before, after)` — the semantics of Python's
`provider.rsplit(".", 1)` producing two parts.  Structurally recursive so
that concrete runs evaluate inside the logic. -/
def splitAtLastDot : List Char → Option (List Char × List Char)
  | [] => Option.none
  | c :: cs =>
      match splitAtLastDot cs with
      | Option.some (m, r) => Option.some (c :: m, r)
      | Option.none => if c = '.' then Option.some ([], cs) else Option.none

/-- `split_provider` from the source: `provider.rsplit(".", 1)` unpacked into
`(mod, cls)`.  On a string with no `"."` (the empty string included),
`rsplit` returns a one-element list and the two-variable unpacking raises
`ValueError: not enough values to unpack (expected 2, got 1)`. -/
def split_provider (provider : String) : Except PyError (String × String) :=
  match splitAtLastDot provider.data with
  | Option.none =>
      Except.error (PyError.valueError "not enough values to unpack (expected 2, got 1)")
  | Option.some (m, c) => Except.ok (String.mk m, String.mk c)

mutual
/-- `collect_providers` from the source: walk the tree with a bag (a set);
in a dict, add the value under `"provider"` when it is a string, then recurse
into every value; in a list, recurse into every element; scalars contribute
nothing.  It validates nothing and never raises. -/
def collect_providers (spec : PyVal) (bag : Finset String) : Finset String :=
  match spec with
  | PyVal.dict kvs =>
      collectVals kvs
        (match dictGet kvs "provider" with
         | Option.some (PyVal.str prov) => insert prov bag
         | _ => bag)
  | PyVal.list xs => collectElems xs bag
  | _ => bag

/-- The `for v in spec.values()` loop of `collect_providers`. -/
def collectVals (kvs : List (String × PyVal)) (bag : Finset String) : Finset String :=
  match kvs with
  | [] => bag
  | (_, v) :: rest => collectVals rest (collect_providers v bag)

/-- The `for v in spec` loop of `collect_providers`. -/
def collectElems (xs : List PyVal) (bag : Finset String) : Finset String :=
  match xs with
  | [] => bag
  | x :: rest => collectElems rest (collect_providers x bag)
end

/-- The specification's characterization of ProviderResolver's result
(§4.2): `s` is a string value occurring under a key named `"provider"` in
some map node anywhere in the tree. -/
inductive HasProviderStr : String → PyVal → Prop where
  | here (kvs : List (String × PyVal)) (s : String) :
      dictGet kvs "provider" = Option.some (PyVal.str s) →
      HasProviderStr s (PyVal.dict kvs)
  | inDict (kvs : List (String × PyVal)) (k : String) (v : PyVal) (s : String) :
      (k, v) ∈ kvs → HasProviderStr s v → HasProviderStr s (PyVal.dict kvs)
  | inList (xs : List PyVal) (x : PyVal) (s : String) :
      x ∈ xs → HasProviderStr s x → HasProviderStr s (PyVal.list xs)

/-- Escaping inside Python `repr` of a string (single-quoted form):
backslash, quote and the control characters that would break the literal. -/
def pyStrEscape (s : String) : String :=
  s.data.foldl
    (fun acc c =>
      acc ++ (if c = '\\' then "\\\\"
        else if c = '\'' then "\\'"
        else if c = '\n' then "\\n"
        else if c = '\t' then "\\t"
        else if c = '\r' then "\\r"
        else String.singleton c)) ""

/-- Python `repr` of a string: single quotes with structure-breaking
characters escaped. -/
def pyStrRepr (s : String) : String := "'" ++ pyStrEscape s ++ "'"

/-- Code-point lexicographic "less or equal" on char lists — Python's string
comparison, the order `sorted` uses on the (unique) keys.  Structurally
recursive over the lists so that concrete runs evaluate inside the logic. -/
def strLeb : List Char → List Char → Bool
  | [], _ => true
  | _ :: _, [] => false
  | c :: cs, d :: ds =>
      if c.toNat < d.toNat then true
      else if d.toNat < c.toNat then false
      else strLeb cs ds

/-- Python's `s1 <= s2` on strings: code-point lexicographic order. -/
def strLe (a b : String) : Bool := strLeb a.data b.data

/-- Sort key-rendered pairs by key (lexicographic string order) via stable
insertion sort — Python's `sorted` on a dict's items compares by the unique
keys and is stable. -/
def sortRendered (ps : List (String × String)) : List (String × String) :=
  ps.insertionSort (fun a b => strLe a.1 b.1 = true)

/-- Sort key-value pairs by key, stably, as above. -/
def sortPairs (kvs : List (String × PyVal)) : List (String × PyVal) :=
  kvs.insertionSort (fun a b => strLe a.1 b.1 = true)

mutual
/-- `dict_to_python_literal` from the source.  Its body is
`pprint.pformat(d, width=88, indent=2, compact=False, sort_dicts=True)`;
`pprint` is standard-library code absent from `src/`, so its rendering is
modelled from the spec (§4.4 CodeEmitter): map keys sorted lexicographically
with values rendered recursively, list order preserved, canonical scalar
literals (`repr` quoting for strings, `True`/`False`/`None`, plain decimal
numbers), and objects outside the JSON scalar set rendered via their `repr`
(`pformat` never raises).  `pformat`'s width-88 line wrapping is omitted as
layout that "must never alter the decoded value".  Sorting the key-rendered
pairs equals `pformat`'s sorting of the items, since only keys are compared
and the sort is stable. -/
def dict_to_python_literal : PyVal → String
  | PyVal.str s => pyStrRepr s
  | PyVal.int n => toString n
  | PyVal.bool b => if b then "True" else "False"
  | PyVal.null => "None"
  | PyVal.other r => r
  | PyVal.list xs => "[" ++ String.intercalate ", " (renderElems xs) ++ "]"
  | PyVal.dict kvs =>
      "\x7b" ++
        String.intercalate ", "
          ((sortRendered (renderPairs kvs)).map (fun p => pyStrRepr p.1 ++ ": " ++ p.2)) ++
        "\x7d"

/-- Render each element of a list. -/
def renderElems : List PyVal → List String
  | [] => []
  | x :: xs => dict_to_python_literal x :: renderElems xs

/-- Render each value of a dict, keeping its key. -/
def renderPairs : List (String × PyVal) → List (String × String)
  | [] => []
  | (k, v) :: rest => (k, dict_to_python_literal v) :: renderPairs rest
end

mutual
/-- The canonical form of a tree: every dict's entries sorted by key
(recursively), lists and scalars untouched.  Two trees are equal as maps —
differ only in dict insertion order — exactly when their canonical forms are
equal. -/
def canon : PyVal → PyVal
  | PyVal.str s => PyVal.str s
  | PyVal.int n => PyVal.int n
  | PyVal.bool b => PyVal.bool b
  | PyVal.null => PyVal.null
  | PyVal.other r => PyVal.other r
  | PyVal.list xs => PyVal.list (canonElems xs)
  | PyVal.dict kvs => PyVal.dict (sortPairs (canonPairs kvs))

/-- Canonicalize each element of a list. -/
def canonElems : List PyVal → List PyVal
  | [] => []
  | x :: xs => canon x :: canonElems xs

/-- Canonicalize each value of a dict, keeping its key. -/
def canonPairs : List (String × PyVal) → List (String × PyVal)
  | [] => []
  | (k, v) :: rest => (k, canon v) :: canonPairs rest
end

/-- Deep equality of trees as maps: equal canonical forms, i.e. equal up to
dict key insertion order. -/
def DeepEqual (a b : PyVal) : Prop := canon a = canon b

/-- A literal text decodes to tree `u`: `u` is a canonical tree whose
rendering is that text.  (The denotation of the emitted literal, §4.4:
re-parsing a rendered literal yields the tree it renders, up to dict
ordering — rendering is key-sorted, so the decoded tree is canonical.) -/
def Decodes (text : String) (u : PyVal) : Prop :=
  canon u = u ∧ dict_to_python_literal u = text

/-- A registered explicit-constructor template.  In the source a template is
a Python format string rendered as `template.format(var=var, cfg=spec)`;
it is modelled as the function it denotes, from the target variable name and
the full spec dict to code text (the spec's Template type, §3). -/
def Template : Type := String → PyVal → String

/-- `EXPLICIT_CTORS` from the source: the caller-editable template registry.
In the repository it is empty — no explicit templates are registered. -/
def EXPLICIT_CTORS : List (String × Template) := []

/-- Python `EXPLICIT_CTORS.get(provider)`: first (only) binding of the key. -/
def findTemplate (reg : List (String × Template)) (provider : String) : Option Template :=
  match reg with
  | [] => Option.none
  | (k, t) :: rest => if k = provider then Option.some t else findTemplate rest provider

/-- The guard condition of `emit_builder`'s first statement:
`not isinstance(spec, dict) or "provider" not in spec`. -/
def lacksProviderKey (spec : PyVal) : Bool :=
  match spec with
  | PyVal.dict kvs => (dictGet kvs "provider").isNone
  | _ => true

/-- Python `imports.add(x)` on a set represented as a duplicate-free list:
append the pair when absent.  (The source's set is only ever consumed after
sorting, so the representation order is immaterial.) -/
def setAdd (imports : List (String × String)) (x : String × String) :
    List (String × String) :=
  if x ∈ imports then imports else imports ++ [x]

/-- `emit_builder` from the source: reject a non-dict or provider-less root
with `ValueError`; resolve the provider (a non-string provider value has no
`rsplit` method, hence `AttributeError`; a separator-less one fails inside
`split_provider`); record the root's `(module, class)` import; then either
render the registered template or fall back to
`var = Class.load_component(<literal of the whole spec>)`.  Returns the body
code and the import set (the source mutates its `imports` argument). -/
def emit_builder (reg : List (String × Template)) (spec : PyVal) (var : String)
    (imports : List (String × String)) :
    Except PyError (String × List (String × String)) :=
  match spec with
  | PyVal.dict kvs =>
      (match dictGet kvs "provider" with
       | Option.none =>
           Except.error (PyError.valueError "Top-level spec must be a dict with a 'provider' key.")
       | Option.some (PyVal.str provider) =>
           (match split_provider provider with
            | Except.error e => Except.error e
            | Except.ok (module, cls_name) =>
                let imports1 := setAdd imports (module, cls_name)
                match findTemplate reg provider with
                | Option.some tmpl => Except.ok (tmpl var spec, imports1)
                | Option.none =>
                    Except.ok
                      (var ++ " = " ++ cls_name ++ ".load_component(" ++
                         dict_to_python_literal spec ++ ")",
                       imports1))
       | Option.some _ =>
           Except.error (PyError.attributeError "this object has no attribute 'rsplit'"))
  | _ =>
      Except.error (PyError.valueError "Top-level spec must be a dict with a 'provider' key.")

/-- The generated file's header comment, naming the source document. -/
def headerText (jsonName : String) : String :=
  "# This file was generated from: " ++ jsonName ++
    "\n# It reconstructs your AutoGen 0.4.x configuration in pure Python." ++
    "\n# You can now edit it freely (no JSON needed at runtime)."

/-- The fixed runnable stub (`run_block` in the source): a constant string,
independent of the input tree. -/
def runBlock : String :=
  "import asyncio\n\nasync def main():\n    # 'team' is constructed above. Provide any task you want to run:\n    result = await team.run(task=\"Say hello (generated code).\")\n    print(result)\n\nif __name__ == \"__main__\":\n    asyncio.run(main())"

/-- Step 4 of `generate_python_from_json`: group the `(module, class)` import
pairs by module and render `from <module> import <classes>` lines, modules
sorted, classes within a module sorted, comma-separated. -/
def importLinesOf (importSet : List (String × String)) : List String :=
  ((importSet.map Prod.fst).dedup.insertionSort (fun a b => strLe a b = true)).map
    (fun mod =>
      "from " ++ mod ++ " import " ++
        String.intercalate ", "
          (((importSet.filter (fun p => p.1 == mod)).map Prod.snd).dedup.insertionSort
            (fun a b => strLe a b = true)))

/-- `generate_python_from_json` from the source, between the file read and
the file write (the pure text computation): collect every provider (the
result is discarded by the source, `_ = sorted(...)`), emit the root builder
with `var = "team"` and a fresh import set, build the grouped import lines,
and join header, import lines, body and the runnable stub with the fixed
`"\n\n"` separator (the `""` entries of the joined list give the blank-line
gaps). -/
def generate (reg : List (String × Template)) (jsonName : String) (spec : PyVal) :
    Except PyError String :=
  let _unusedProviders := collect_providers spec ∅
  match emit_builder reg spec "team" [] with
  | Except.error e => Except.error e
  | Except.ok (bodyCode, importSet) =>
      Except.ok
        (String.intercalate "\n\n"
          ([headerText jsonName] ++ importLinesOf importSet ++ [""] ++ [bodyCode] ++
            [""] ++ [runBlock] ++ [""]))

mutual
/-- Does every scalar of the tree lie in the JSON scalar set
{string, number, boolean, null} (no `other` node anywhere)? -/
def scalarsInJsonSet : PyVal → Bool
  | PyVal.str _ => true
  | PyVal.int _ => true
  | PyVal.bool _ => true
  | PyVal.null => true
  | PyVal.other _ => false
  | PyVal.list xs => scalarsElems xs
  | PyVal.dict kvs => scalarsPairs kvs

/-- `scalarsInJsonSet` over a list's elements. -/
def scalarsElems : List PyVal → Bool
  | [] => true
  | x :: xs => scalarsInJsonSet x && scalarsElems xs

/-- `scalarsInJsonSet` over a dict's values. -/
def scalarsPairs : List (String × PyVal) → Bool
  | [] => true
  | (_, v) :: rest => scalarsInJsonSet v && scalarsPairs rest
end

mutual
/-- Modelled from the spec: §4.4 CodeEmitter's `render_literal`, which
"fails with LiteralEmitError on any scalar value outside
{string, number, boolean, null}" — behaviour absent from the source, whose
emitter (`pprint.pformat`) is total.  Identical to `dict_to_python_literal`
except for the error on out-of-set scalars. -/
def render_literal_spec : PyVal → Except PyError String
  | PyVal.str s => Except.ok (pyStrRepr s)
  | PyVal.int n => Except.ok (toString n)
  | PyVal.bool b => Except.ok (if b then "True" else "False")
  | PyVal.null => Except.ok "None"
  | PyVal.other _ => Except.error (PyError.literalEmitError "unsupported scalar kind")
  | PyVal.list xs =>
      (match renderElemsSpec xs with
       | Except.error e => Except.error e
       | Except.ok ss => Except.ok ("[" ++ String.intercalate ", " ss ++ "]"))
  | PyVal.dict kvs =>
      (match renderPairsSpec kvs with
       | Except.error e => Except.error e
       | Except.ok ps =>
           Except.ok
             ("\x7b" ++
               String.intercalate ", "
                 ((sortRendered ps).map (fun p => pyStrRepr p.1 ++ ": " ++ p.2)) ++
               "\x7d"))

/-- Spec emitter over a list's elements. -/
def renderElemsSpec : List PyVal → Except PyError (List String)
  | [] => Except.ok []
  | x :: xs =>
      (match render_literal_spec x with
       | Except.error e => Except.error e
       | Except.ok s =>
           match renderElemsSpec xs with
           | Except.error e => Except.error e
           | Except.ok ss => Except.ok (s :: ss))

/-- Spec emitter over a dict's entries. -/
def renderPairsSpec : List (String × PyVal) → Except PyError (List (String × String))
  | [] => Except.ok []
  | (k, v) :: rest =>
      (match render_literal_spec v with
       | Except.error e => Except.error e
       | Except.ok s =>
           match renderPairsSpec rest with
           | Except.error e => Except.error e
           | Except.ok ps => Except.ok ((k, s) :: ps))
end

/-! ### The code-point lexicographic order: reflexive, total, transitive -/

theorem strLeb_cons_iff (x y : Char) (xs ys : List Char) :
    strLeb (x :: xs) (y :: ys) = true ↔
      x.toNat < y.toNat ∨ (x.toNat = y.toNat ∧ strLeb xs ys = true) := by
  rw [strLeb]
  split_ifs with h1 h2
  · simp [h1]
  · constructor
    · intro hh
      cases hh
    · rintro (hh | ⟨hh, _⟩) <;> omega
  · have hxy : x.toNat = y.toNat := by omega
    simp [hxy]

theorem strLeb_refl (a : List Char) : strLeb a a = true := by
  induction a with
  | nil => rfl
  | cons c cs ih =>
      rw [strLeb_cons_iff]
      exact Or.inr ⟨rfl, ih⟩

theorem strLeb_total (a b : List Char) : strLeb a b = true ∨ strLeb b a = true := by
  induction a generalizing b with
  | nil => exact Or.inl rfl
  | cons x xs ih =>
      cases b with
      | nil => exact Or.inr rfl
      | cons y ys =>
          rw [strLeb_cons_iff, strLeb_cons_iff]
          rcases Nat.lt_trichotomy x.toNat y.toNat with h | h | h
          · exact Or.inl (Or.inl h)
          · rcases ih ys with h2 | h2
            · exact Or.inl (Or.inr ⟨h, h2⟩)
            · exact Or.inr (Or.inr ⟨h.symm, h2⟩)
          · exact Or.inr (Or.inl h)

theorem strLeb_trans (a b c : List Char) (hab : strLeb a b = true)
    (hbc : strLeb b c = true) : strLeb a c = true := by
  induction a generalizing b c with
  | nil => rfl
  | cons x xs ih =>
      cases b with
      | nil => exact Bool.noConfusion hab
      | cons y ys =>
          cases c with
          | nil => exact Bool.noConfusion hbc
          | cons z zs =>
              rw [strLeb_cons_iff] at hab hbc ⊢
              rcases hab with h1 | ⟨h1, h1b⟩ <;> rcases hbc with h2 | ⟨h2, h2b⟩
              · exact Or.inl (by omega)
              · exact Or.inl (by omega)
              · exact Or.inl (by omega)
              · exact Or.inr ⟨by omega, ih ys zs h1b h2b⟩

/-! ### ProviderResolver: `collect_providers` collects exactly the provider strings -/

theorem hasProviderStr_dict_iff (s : String) (kvs : List (String × PyVal)) :
    HasProviderStr s (PyVal.dict kvs) ↔
      dictGet kvs "provider" = Option.some (PyVal.str s) ∨
        ∃ k v, (k, v) ∈ kvs ∧ HasProviderStr s v := by
  constructor
  · intro h
    cases h with
    | here _ _ hget => exact Or.inl hget
    | inDict _ k v _ hmem hv => exact Or.inr ⟨k, v, hmem, hv⟩
  · intro h
    rcases h with hget | ⟨k, v, hmem, hv⟩
    · exact HasProviderStr.here kvs s hget
    · exact HasProviderStr.inDict kvs k v s hmem hv

theorem hasProviderStr_list_iff (s : String) (xs : List PyVal) :
    HasProviderStr s (PyVal.list xs) ↔ ∃ x ∈ xs, HasProviderStr s x := by
  constructor
  · intro h
    cases h with
    | inList _ x _ hmem hx => exact ⟨x, hmem, hx⟩
  · intro h
    rcases h with ⟨x, hmem, hx⟩
    exact HasProviderStr.inList xs x s hmem hx

mutual
theorem mem_collect_providers (s : String) (t : PyVal) (bag : Finset String) :
    s ∈ collect_providers t bag ↔ s ∈ bag ∨ HasProviderStr s t := by
  cases t with
  | dict kvs =>
      rw [collect_providers, mem_collectVals, hasProviderStr_dict_iff]
      cases hget : dictGet kvs "provider" with
      | none => simp
      | some v =>
          cases v with
          | str prov =>
              simp only [Finset.mem_insert, Option.some.injEq, PyVal.str.injEq]
              constructor
              · rintro ((h | h) | h)
                · exact Or.inr (Or.inl h.symm)
                · exact Or.inl h
                · exact Or.inr (Or.inr h)
              · rintro (h | h | h)
                · exact Or.inl (Or.inr h)
                · exact Or.inl (Or.inl h.symm)
                · exact Or.inr h
          | int n => simp [hget]
          | bool b => simp [hget]
          | null => simp [hget]
          | list xs => simp [hget]
          | dict kvs2 => simp [hget]
          | other r => simp [hget]
  | list xs =>
      rw [collect_providers, mem_collectElems, hasProviderStr_list_iff]
  | str a =>
      simp only [collect_providers]
      exact ⟨Or.inl, fun h => h.elim id (fun h2 => nomatch h2)⟩
  | int n =>
      simp only [collect_providers]
      exact ⟨Or.inl, fun h => h.elim id (fun h2 => nomatch h2)⟩
  | bool b =>
      simp only [collect_providers]
      exact ⟨Or.inl, fun h => h.elim id (fun h2 => nomatch h2)⟩
  | null =>
      simp only [collect_providers]
      exact ⟨Or.inl, fun h => h.elim id (fun h2 => nomatch h2)⟩
  | other r =>
      simp only [collect_providers]
      exact ⟨Or.inl, fun h => h.elim id (fun h2 => nomatch h2)⟩

theorem mem_collectVals (s : String) (kvs : List (String × PyVal)) (bag : Finset String) :
    s ∈ collectVals kvs bag ↔ s ∈ bag ∨ ∃ k v, (k, v) ∈ kvs ∧ HasProviderStr s v := by
  match kvs with
  | [] => simp [collectVals]
  | (k, v) :: rest =>
      rw [collectVals, mem_collectVals s rest (collect_providers v bag),
        mem_collect_providers s v bag]
      constructor
      · rintro ((h | h) | ⟨k2, v2, hmem, hv⟩)
        · exact Or.inl h
        · exact Or.inr ⟨k, v, List.mem_cons_self _ _, h⟩
        · exact Or.inr ⟨k2, v2, List.mem_cons_of_mem _ hmem, hv⟩
      · rintro (h | ⟨k2, v2, hmem, hv⟩)
        · exact Or.inl (Or.inl h)
        · rcases List.mem_cons.mp hmem with heq | hmem2
          · cases heq
            exact Or.inl (Or.inr hv)
          · exact Or.inr ⟨k2, v2, hmem2, hv⟩

theorem mem_collectElems (s : String) (xs : List PyVal) (bag : Finset String) :
    s ∈ collectElems xs bag ↔ s ∈ bag ∨ ∃ x ∈ xs, HasProviderStr s x := by
  match xs with
  | [] => simp [collectElems]
  | x :: rest =>
      rw [collectElems, mem_collectElems s rest (collect_providers x bag),
        mem_collect_providers s x bag]
      constructor
      · rintro ((h | h) | ⟨x2, hmem, hx⟩)
        · exact Or.inl h
        · exact Or.inr ⟨x, List.mem_cons_self _ _, h⟩
        · exact Or.inr ⟨x2, List.mem_cons_of_mem _ hmem, hx⟩
      · rintro (h | ⟨x2, hmem, hx⟩)
        · exact Or.inl (Or.inl h)
        · rcases List.mem_cons.mp hmem with heq | hmem2
          · cases heq
            exact Or.inl (Or.inr hx)
          · exact Or.inr ⟨x2, hmem2, hx⟩
end

/-- C4: for every finite tree of maps, lists and scalars, `collect_providers`
(started on the empty bag, as `generate_python_from_json` does) returns
exactly the set of string values occurring under a key named `"provider"` in
any map anywhere in the tree — it visits every map's values and every list's
elements recursively, and non-string values under `"provider"` contribute
nothing (membership requires a `PyVal.str` binding). -/
theorem c4_collect_providers_exact (s : String) (t : PyVal) :
    s ∈ collect_providers t ∅ ↔ HasProviderStr s t := by
  rw [mem_collect_providers]
  simp

/-! ### CodeEmitter: key-sorted rendering and canonical forms -/

theorem snd_map_insertionSort {α β : Type} (g : α → β) (l : List (String × α)) :
    (l.insertionSort (fun a b => strLe a.1 b.1 = true)).map (fun p => (p.1, g p.2)) =
      (l.map (fun p => (p.1, g p.2))).insertionSort (fun a b => strLe a.1 b.1 = true) :=
  List.map_insertionSort _ _ _ _ (fun _ _ _ _ => Iff.rfl)

theorem insertionSort_key_idem {α : Type} (l : List (String × α)) :
    (l.insertionSort (fun a b => strLe a.1 b.1 = true)).insertionSort
        (fun a b => strLe a.1 b.1 = true) =
      l.insertionSort (fun a b => strLe a.1 b.1 = true) := by
  haveI : IsTotal (String × α) (fun a b => strLe a.1 b.1 = true) :=
    ⟨fun a b => strLeb_total a.1.data b.1.data⟩
  haveI : IsTrans (String × α) (fun a b => strLe a.1 b.1 = true) :=
    ⟨fun a b c hab hbc => strLeb_trans a.1.data b.1.data c.1.data hab hbc⟩
  exact (List.sorted_insertionSort _ l).insertionSort_eq

theorem renderPairs_eq_map (l : List (String × PyVal)) :
    renderPairs l = l.map (fun p => (p.1, dict_to_python_literal p.2)) := by
  induction l with
  | nil => rfl
  | cons p rest ih =>
      cases p
      rw [renderPairs, ih, List.map_cons]

theorem canonPairs_eq_map (l : List (String × PyVal)) :
    canonPairs l = l.map (fun p => (p.1, canon p.2)) := by
  induction l with
  | nil => rfl
  | cons p rest ih =>
      cases p
      rw [canonPairs, ih, List.map_cons]

/-- Rendering the values of key-sorted pairs is sorting the rendered pairs:
the sort compares keys only and rendering keeps keys. -/
theorem renderPairs_sortPairs (l : List (String × PyVal)) :
    renderPairs (sortPairs l) = sortRendered (renderPairs l) := by
  rw [renderPairs_eq_map, renderPairs_eq_map, sortPairs, sortRendered,
    snd_map_insertionSort]

/-- Canonicalizing the values of key-sorted pairs is sorting the
canonicalized pairs. -/
theorem canonPairs_sortPairs (l : List (String × PyVal)) :
    canonPairs (sortPairs l) = sortPairs (canonPairs l) := by
  rw [canonPairs_eq_map, canonPairs_eq_map, sortPairs, sortPairs,
    snd_map_insertionSort]

theorem sortRendered_idem (l : List (String × String)) :
    sortRendered (sortRendered l) = sortRendered l :=
  insertionSort_key_idem l

theorem sortPairs_idem (l : List (String × PyVal)) :
    sortPairs (sortPairs l) = sortPairs l :=
  insertionSort_key_idem l

mutual
/-- The literal rendering of a tree equals that of its canonical form: the
emitter sorts dict entries by key at every level, so pre-sorting changes
nothing. -/
theorem literal_canon (t : PyVal) :
    dict_to_python_literal (canon t) = dict_to_python_literal t := by
  cases t with
  | dict kvs =>
      rw [canon]
      rw [dict_to_python_literal, dict_to_python_literal]
      rw [renderPairs_sortPairs, sortRendered_idem, renderPairs_canonPairs kvs]
  | list xs =>
      rw [canon]
      rw [dict_to_python_literal, dict_to_python_literal]
      rw [renderElems_canonElems xs]
  | str s => rfl
  | int n => rfl
  | bool b => rfl
  | null => rfl
  | other r => rfl

theorem renderPairs_canonPairs (l : List (String × PyVal)) :
    renderPairs (canonPairs l) = renderPairs l := by
  match l with
  | [] => rfl
  | (k, v) :: rest =>
      rw [canonPairs, renderPairs, renderPairs, literal_canon v,
        renderPairs_canonPairs rest]

theorem renderElems_canonElems (xs : List PyVal) :
    renderElems (canonElems xs) = renderElems xs := by
  match xs with
  | [] => rfl
  | x :: rest =>
      rw [canonElems, renderElems, renderElems, literal_canon x,
        renderElems_canonElems rest]
end

mutual
/-- Canonicalization is idempotent. -/
theorem canon_canon (t : PyVal) : canon (canon t) = canon t := by
  cases t with
  | dict kvs =>
      rw [canon, canon]
      rw [canonPairs_sortPairs, canonPairs_canonPairs kvs, sortPairs_idem]
  | list xs =>
      rw [canon, canon, canonElems_canonElems xs]
  | str s => rfl
  | int n => rfl
  | bool b => rfl
  | null => rfl
  | other r => rfl

theorem canonPairs_canonPairs (l : List (String × PyVal)) :
    canonPairs (canonPairs l) = canonPairs l := by
  match l with
  | [] => rfl
  | (k, v) :: rest =>
      rw [canonPairs, canonPairs, canon_canon v, canonPairs_canonPairs rest]

theorem canonElems_canonElems (xs : List PyVal) :
    canonElems (canonElems xs) = canonElems xs := by
  match xs with
  | [] => rfl
  | x :: rest =>
      rw [canonElems, canonElems, canon_canon x, canonElems_canonElems rest]
end

/-! ### Key lookup is unchanged by the stable key-sort and by canonicalization -/

theorem dictGet_orderedInsert (a : String × PyVal) (m : List (String × PyVal)) (k : String) :
    dictGet (m.orderedInsert (fun x y => strLe x.1 y.1 = true) a) k =
      if a.1 = k then Option.some a.2 else dictGet m k := by
  obtain ⟨a1, a2⟩ := a
  induction m with
  | nil => rfl
  | cons b rest ih =>
      obtain ⟨b1, b2⟩ := b
      rw [List.orderedInsert]
      by_cases hab : strLe a1 b1 = true
      · rw [if_pos hab]
        rfl
      · rw [if_neg hab]
        rw [dictGet, dictGet, ih]
        by_cases hbk : b1 = k
        · rw [if_pos hbk]
          by_cases hak : a1 = k
          · have heq : a1 = b1 := hak.trans hbk.symm
            have : strLe a1 b1 = true := by
              rw [heq]
              exact strLeb_refl b1.data
            exact absurd this hab
          · rw [if_neg hak, if_pos hbk]
        · rw [if_neg hbk]
          by_cases hak : a1 = k
          · rw [if_pos hak, if_pos hak]
          · rw [if_neg hak, if_neg hak, if_neg hbk]

theorem dictGet_sortPairs (m : List (String × PyVal)) (k : String) :
    dictGet (sortPairs m) k = dictGet m k := by
  induction m with
  | nil => rfl
  | cons a rest ih =>
      obtain ⟨a1, a2⟩ := a
      rw [sortPairs, List.insertionSort, dictGet_orderedInsert]
      rw [sortPairs] at ih
      rw [ih, dictGet]

theorem dictGet_canonPairs (m : List (String × PyVal)) (k : String) :
    dictGet (canonPairs m) k = Option.map canon (dictGet m k) := by
  induction m with
  | nil => rfl
  | cons a rest ih =>
      obtain ⟨a1, a2⟩ := a
      rw [canonPairs, dictGet, dictGet, ih]
      by_cases hak : a1 = k
      · rw [if_pos hak, if_pos hak, Option.map_some']
      · rw [if_neg hak, if_neg hak]

/-- Lookup in the canonical form of a dict: the looked-up value, canonicalized
(the stable key-sort does not change which binding is first). -/
theorem dictGet_canonDict (kvs : List (String × PyVal)) (k : String) :
    dictGet (sortPairs (canonPairs kvs)) k = Option.map canon (dictGet kvs k) := by
  rw [dictGet_sortPairs, dictGet_canonPairs]

/-- With the repository's (empty) template registry, `emit_builder` depends
on its spec argument only through the canonical form: trees equal as maps
produce identical body code and imports. -/
theorem emit_builder_empty_reg_congr (t1 t2 : PyVal) (var : String)
    (imps : List (String × String)) (h : canon t1 = canon t2) :
    emit_builder EXPLICIT_CTORS t1 var imps = emit_builder EXPLICIT_CTORS t2 var imps := by
  cases t1 <;> cases t2
  all_goals try rfl
  all_goals try (simp only [canon] at h; exact PyVal.noConfusion h)
  rename_i kvs1 kvs2
  have hinner : sortPairs (canonPairs kvs1) = sortPairs (canonPairs kvs2) := by
    have h2 := h
    rw [canon, canon] at h2
    injection h2
  have hget : Option.map canon (dictGet kvs1 "provider") =
      Option.map canon (dictGet kvs2 "provider") := by
    rw [← dictGet_canonDict, ← dictGet_canonDict, hinner]
  have hlit : dict_to_python_literal (PyVal.dict kvs1) =
      dict_to_python_literal (PyVal.dict kvs2) := by
    rw [← literal_canon (PyVal.dict kvs1), ← literal_canon (PyVal.dict kvs2), h]
  simp only [emit_builder]
  cases ho1 : dictGet kvs1 "provider" with
  | none =>
      cases ho2 : dictGet kvs2 "provider" with
      | none => rfl
      | some v2 =>
          rw [ho1, ho2] at hget
          simp at hget
  | some v1 =>
      cases ho2 : dictGet kvs2 "provider" with
      | none =>
          rw [ho1, ho2] at hget
          simp at hget
      | some v2 =>
          rw [ho1, ho2] at hget
          simp only [Option.map_some', Option.some.injEq] at hget
          cases v1 <;> cases v2
          all_goals try rfl
          all_goals try (simp only [canon] at hget; exact PyVal.noConfusion hget)
          rename_i p1 p2
          have hp : p1 = p2 := by simpa [canon] using hget
          subst hp
          dsimp only
          cases hsp : split_provider p1 with
          | error e => rfl
          | ok mc =>
              obtain ⟨m, c⟩ := mc
              dsimp only [EXPLICIT_CTORS, findTemplate]
              rw [hlit]

/-! ### Shape of successful emission and of the grouped import lines -/

theorem importLinesOf_singleton (m c : String) :
    importLinesOf [(m, c)] = ["from " ++ m ++ " import " ++ c] := by
  rw [importLinesOf]
  simp only [List.map_cons, List.map_nil, List.filter_cons, List.filter_nil,
    beq_self_eq_true, if_true, List.dedup_nil, List.dedup_cons_of_not_mem (List.not_mem_nil _),
    List.insertionSort, List.orderedInsert]
  rfl

theorem split_provider_error_msg (p : String) (e : PyError)
    (h : split_provider p = Except.error e) :
    e = PyError.valueError "not enough values to unpack (expected 2, got 1)" := by
  cases hq : splitAtLastDot p.data with
  | none =>
      simp only [split_provider, hq] at h
      injection h with h2
      exact h2.symm
  | some mc =>
      obtain ⟨m, c⟩ := mc
      simp only [split_provider, hq] at h
      exact Except.noConfusion h

/-- Whenever `emit_builder` succeeds, the root was a dict with a string
provider that resolved to `(module, class)`; the returned import set is
exactly the incoming one plus that root pair; and the body code is the
template rendering when one is registered, the `load_component` fallback on
the literal of the whole root otherwise. -/
theorem emit_builder_ok_shape (reg : List (String × Template)) (spec : PyVal)
    (var : String) (imps : List (String × String)) (code : String)
    (impset : List (String × String))
    (h : emit_builder reg spec var imps = Except.ok (code, impset)) :
    ∃ kvs p m c, spec = PyVal.dict kvs ∧
      dictGet kvs "provider" = Option.some (PyVal.str p) ∧
      split_provider p = Except.ok (m, c) ∧
      impset = setAdd imps (m, c) ∧
      (findTemplate reg p = Option.none →
        code = var ++ " = " ++ c ++ ".load_component(" ++ dict_to_python_literal spec ++ ")") ∧
      (∀ tmpl, findTemplate reg p = Option.some tmpl → code = tmpl var spec) := by
  cases spec with
  | dict kvs =>
      simp only [emit_builder] at h
      cases ho : dictGet kvs "provider" with
      | none =>
          rw [ho] at h
          exact Except.noConfusion h
      | some v =>
          rw [ho] at h
          cases v with
          | str p =>
              dsimp only at h
              cases hsp : split_provider p with
              | error e =>
                  rw [hsp] at h
                  exact Except.noConfusion h
              | ok mc =>
                  obtain ⟨m, c⟩ := mc
                  rw [hsp] at h
                  dsimp only at h
                  cases hft : findTemplate reg p with
                  | none =>
                      rw [hft] at h
                      injection h with h2
                      injection h2 with hcode himps
                      refine ⟨kvs, p, m, c, rfl, ho, hsp, himps.symm, fun _ => hcode.symm,
                        fun tmpl htmpl => ?_⟩
                      rw [hft] at htmpl
                      exact Option.noConfusion htmpl
                  | some tmpl =>
                      rw [hft] at h
                      injection h with h2
                      injection h2 with hcode himps
                      refine ⟨kvs, p, m, c, rfl, ho, hsp, himps.symm, fun hnone => ?_,
                        fun tmpl2 htmpl2 => ?_⟩
                      · rw [hft] at hnone
                        exact Option.noConfusion hnone
                      · rw [hft] at htmpl2
                        injection htmpl2 with h3
                        rw [← h3]
                        exact hcode.symm
          | int n => exact Except.noConfusion h
          | bool b => exact Except.noConfusion h
          | null => exact Except.noConfusion h
          | list xs => exact Except.noConfusion h
          | dict kvs2 => exact Except.noConfusion h
          | other r => exact Except.noConfusion h
  | str s => exact Except.noConfusion h
  | int n => exact Except.noConfusion h
  | bool b => exact Except.noConfusion h
  | null => exact Except.noConfusion h
  | list xs => exact Except.noConfusion h
  | other r => exact Except.noConfusion h

mutual
/-- On trees whose scalars all lie in the JSON set, the specification's
failing emitter agrees with the source's total one. -/
theorem render_spec_agrees (t : PyVal) (h : scalarsInJsonSet t = true) :
    render_literal_spec t = Except.ok (dict_to_python_literal t) := by
  cases t with
  | str s => rfl
  | int n => rfl
  | bool b => rfl
  | null => rfl
  | other r =>
      rw [scalarsInJsonSet] at h
      exact Bool.noConfusion h
  | list xs =>
      rw [scalarsInJsonSet] at h
      rw [render_literal_spec, renderElemsSpec_agrees xs h, dict_to_python_literal]
  | dict kvs =>
      rw [scalarsInJsonSet] at h
      rw [render_literal_spec, renderPairsSpec_agrees kvs h, dict_to_python_literal]

theorem renderElemsSpec_agrees (xs : List PyVal) (h : scalarsElems xs = true) :
    renderElemsSpec xs = Except.ok (renderElems xs) := by
  match xs with
  | [] => rfl
  | x :: rest =>
      rw [scalarsElems, Bool.and_eq_true] at h
      rw [renderElemsSpec, render_spec_agrees x h.1, renderElemsSpec_agrees rest h.2,
        renderElems]

theorem renderPairsSpec_agrees (kvs : List (String × PyVal)) (h : scalarsPairs kvs = true) :
    renderPairsSpec kvs = Except.ok (renderPairs kvs) := by
  match kvs with
  | [] => rfl
  | (k, v) :: rest =>
      rw [scalarsPairs, Bool.and_eq_true] at h
      rw [renderPairsSpec, render_spec_agrees v h.1, renderPairsSpec_agrees rest h.2,
        renderPairs]
end

/-! ### The claims -/

/-- C3: for every root map spec with a `"provider"` key whose provider string
has no entry in the template registry (and which resolves, i.e. splits at a
separator into module and symbol), `emit_builder` returns exactly one
assignment statement `var = <ClassName>.load_component(<literal>)`, where the
literal is the rendering of the ENTIRE root node — not only a sub-field —
and `<ClassName>` is the symbol part of the resolved provider. -/
theorem c3_fallback_assignment (reg : List (String × Template))
    (kvs : List (String × PyVal)) (var p m c : String)
    (hp : dictGet kvs "provider" = Option.some (PyVal.str p))
    (hsplit : split_provider p = Except.ok (m, c))
    (hreg : findTemplate reg p = Option.none) :
    emit_builder reg (PyVal.dict kvs) var [] =
      Except.ok
        (var ++ " = " ++ c ++ ".load_component(" ++
           dict_to_python_literal (PyVal.dict kvs) ++ ")",
         [(m, c)]) := by
  simp only [emit_builder, hp, hsplit, hreg]
  rfl

/-- Witness for C3: the Example A root, `ns.TeamX`, with the repository's
empty registry. -/
theorem c3_witness :
    emit_builder EXPLICIT_CTORS
        (PyVal.dict [("provider", PyVal.str "ns.TeamX"),
          ("config", PyVal.dict [("name", PyVal.str "t1")])]) "team" [] =
      Except.ok
        ("team" ++ " = " ++ "TeamX" ++ ".load_component(" ++
           dict_to_python_literal
             (PyVal.dict [("provider", PyVal.str "ns.TeamX"),
               ("config", PyVal.dict [("name", PyVal.str "t1")])]) ++ ")",
         [("ns", "TeamX")]) :=
  c3_fallback_assignment EXPLICIT_CTORS
    [("provider", PyVal.str "ns.TeamX"), ("config", PyVal.dict [("name", PyVal.str "t1")])]
    "team" "ns.TeamX" "ns" "TeamX" rfl rfl rfl

/-- C5: the literal emitter renders every map through its canonical
key-sorted form, so two input trees that are equal as maps and differ only
in map key insertion order (equal canonical forms, `DeepEqual`) produce
byte-identical generated output text (with the repository's registry, where
every root takes the sorted-literal fallback path). -/
theorem c5_order_insensitive :
    (∀ t : PyVal, dict_to_python_literal (canon t) = dict_to_python_literal t) ∧
    (∀ (jsonName : String) (t1 t2 : PyVal), DeepEqual t1 t2 →
       generate EXPLICIT_CTORS jsonName t1 = generate EXPLICIT_CTORS jsonName t2) := by
  refine ⟨literal_canon, fun jsonName t1 t2 h => ?_⟩
  have he := emit_builder_empty_reg_congr t1 t2 "team" [] h
  simp only [generate]
  rw [he]

/-- Witness for C5: two trees with dict entries permuted at both levels
generate identical output. -/
theorem c5_witness :
    DeepEqual
      (PyVal.dict [("provider", PyVal.str "ns.TeamX"),
        ("config", PyVal.dict [("b", PyVal.int 1), ("a", PyVal.int 2)])])
      (PyVal.dict [("config", PyVal.dict [("a", PyVal.int 2), ("b", PyVal.int 1)]),
        ("provider", PyVal.str "ns.TeamX")]) ∧
    generate EXPLICIT_CTORS "demo.json"
        (PyVal.dict [("provider", PyVal.str "ns.TeamX"),
          ("config", PyVal.dict [("b", PyVal.int 1), ("a", PyVal.int 2)])]) =
      generate EXPLICIT_CTORS "demo.json"
        (PyVal.dict [("config", PyVal.dict [("a", PyVal.int 2), ("b", PyVal.int 1)]),
          ("provider", PyVal.str "ns.TeamX")]) :=
  ⟨rfl, c5_order_insensitive.2 "demo.json" _ _ rfl⟩

/-- C6: template lookup applies only to the root component — two generation
runs whose registries agree at the root's own provider string (however much
they differ at other provider strings, e.g. those of nested components)
produce byte-identical output. -/
theorem c6_root_only_templates (jsonName : String) (spec : PyVal)
    (reg1 reg2 : List (String × Template))
    (h : ∀ kvs p, spec = PyVal.dict kvs →
      dictGet kvs "provider" = Option.some (PyVal.str p) →
      findTemplate reg1 p = findTemplate reg2 p) :
    generate reg1 jsonName spec = generate reg2 jsonName spec := by
  have he : emit_builder reg1 spec "team" [] = emit_builder reg2 spec "team" [] := by
    cases spec with
    | dict kvs =>
        simp only [emit_builder]
        cases ho : dictGet kvs "provider" with
        | none => rfl
        | some v =>
            cases v with
            | str p =>
                dsimp only
                cases hsp : split_provider p with
                | error e => rfl
                | ok mc =>
                    obtain ⟨m, c⟩ := mc
                    dsimp only
                    rw [h kvs p rfl ho]
            | int n => rfl
            | bool b => rfl
            | null => rfl
            | list xs => rfl
            | dict kvs2 => rfl
            | other r => rfl
    | str s => rfl
    | int n => rfl
    | bool b => rfl
    | null => rfl
    | list xs => rfl
    | other r => rfl
  simp only [generate]
  rw [he]

/-- Witness for C6 (Example B): registering a template for the nested
`ns.AgentY` does not change generation of a `ns.TeamX` root. -/
theorem c6_witness :
    generate EXPLICIT_CTORS "demo.json"
        (PyVal.dict [("provider", PyVal.str "ns.TeamX"),
          ("config", PyVal.dict [("members",
            PyVal.list [PyVal.dict [("provider", PyVal.str "ns.AgentY")]])])]) =
      generate
        ([("ns.AgentY", fun v _ => v ++ " = AgentY()")] : List (String × Template))
        "demo.json"
        (PyVal.dict [("provider", PyVal.str "ns.TeamX"),
          ("config", PyVal.dict [("members",
            PyVal.list [PyVal.dict [("provider", PyVal.str "ns.AgentY")]])])]) := by
  refine c6_root_only_templates "demo.json" _ EXPLICIT_CTORS _ ?_
  intro kvs p hs hp
  injection hs with hkvs
  subst hkvs
  have hpv : Option.some (PyVal.str "ns.TeamX") = Option.some (PyVal.str p) := hp
  injection hpv with hpv2
  injection hpv2 with hpv3
  subst hpv3
  rw [findTemplate, if_neg (by decide), EXPLICIT_CTORS, findTemplate]

/-- C10: `emit_builder` raises the guard `ValueError` ("Top-level spec must
be a dict with a 'provider' key.") — an error type outside the spec's
five-error taxonomy — exactly when the input is not a map or is a map
lacking a `"provider"` key; the error result carries no import set and no
code.  On every map that does have a `"provider"` key this error is never
raised (failing providers raise the distinct unpacking `ValueError` or an
`AttributeError` instead). -/
theorem c10_guard_value_error (reg : List (String × Template)) (spec : PyVal)
    (var : String) (imps : List (String × String)) :
    emit_builder reg spec var imps =
        Except.error
          (PyError.valueError "Top-level spec must be a dict with a 'provider' key.")
      ↔ lacksProviderKey spec = true := by
  cases spec with
  | dict kvs =>
      simp only [emit_builder, lacksProviderKey]
      cases ho : dictGet kvs "provider" with
      | none => simp
      | some v =>
          simp only [Option.isNone_some]
          cases v with
          | str p =>
              dsimp only
              cases hsp : split_provider p with
              | error e =>
                  have he := split_provider_error_msg p e hsp
                  subst he
                  simp
              | ok mc =>
                  obtain ⟨m, c⟩ := mc
                  dsimp only
                  cases hft : findTemplate reg p <;> simp
          | int n => simp
          | bool b => simp
          | null => simp
          | list xs => simp
          | dict kvs2 => simp
          | other r => simp
  | str s => simp [emit_builder, lacksProviderKey]
  | int n => simp [emit_builder, lacksProviderKey]
  | bool b => simp [emit_builder, lacksProviderKey]
  | null => simp [emit_builder, lacksProviderKey]
  | list xs => simp [emit_builder, lacksProviderKey]
  | other r => simp [emit_builder, lacksProviderKey]

/-- C9: on every successful generation run the output text is, in this
order: the header comment naming the source document; one sorted import
statement (a run records exactly one namespace — the root provider's);
a blank-line gap; the body code; a blank-line gap; and the runnable stub
`runBlock` — a fixed constant string, the same for every input tree, that
awaits `team.run(task="...")` on the root variable with a constant demo
payload and prints the result.  Sections are joined by the fixed `"\n\n"`
separator, the empty entries yielding the blank-line gaps. -/
theorem c9_output_structure (reg : List (String × Template)) (jsonName : String)
    (spec : PyVal) (out : String)
    (h : generate reg jsonName spec = Except.ok out) :
    ∃ m c body, out = String.intercalate "\n\n"
      [headerText jsonName, "from " ++ m ++ " import " ++ c, "", body, "", runBlock, ""] := by
  simp only [generate] at h
  cases he : emit_builder reg spec "team" [] with
  | error e =>
      rw [he] at h
      exact Except.noConfusion h
  | ok pair =>
      obtain ⟨body, impset⟩ := pair
      rw [he] at h
      dsimp only at h
      obtain ⟨kvs, p, m, c, _, _, _, himps, _, _⟩ :=
        emit_builder_ok_shape reg spec "team" [] body impset he
      refine ⟨m, c, body, ?_⟩
      injection h with h2
      rw [← h2, himps]
      rw [show setAdd ([] : List (String × String)) (m, c) = [(m, c)] from rfl,
        importLinesOf_singleton]
      rfl

/-- Witness for C9: a concrete successful run has the stated shape. -/
theorem c9_witness :
    ∃ out, generate EXPLICIT_CTORS "demo.json"
        (PyVal.dict [("provider", PyVal.str "ns.TeamX")]) = Except.ok out ∧
      ∃ m c body, out = String.intercalate "\n\n"
        [headerText "demo.json", "from " ++ m ++ " import " ++ c, "", body, "",
          runBlock, ""] := by
  refine ⟨_, rfl, ?_⟩
  exact c9_output_structure EXPLICIT_CTORS "demo.json"
    (PyVal.dict [("provider", PyVal.str "ns.TeamX")]) _ rfl

/-- C1 is false on the code: `collect_providers` finds the nested provider
`"c.D"`, but the run's grouped import lines are exactly
`["from a import B"]` — the collected set is discarded by the pipeline
(`_ = sorted(collect_providers(spec))`) and only the root provider is ever
imported, so `"c.D"` appears in zero grouped import statements rather than
exactly one. -/
theorem c1_counterexample :
    "c.D" ∈ collect_providers
        (PyVal.dict [("provider", PyVal.str "a.B"),
          ("config", PyVal.dict [("x", PyVal.dict [("provider", PyVal.str "c.D")])])]) ∅ ∧
    (∃ code, emit_builder EXPLICIT_CTORS
        (PyVal.dict [("provider", PyVal.str "a.B"),
          ("config", PyVal.dict [("x", PyVal.dict [("provider", PyVal.str "c.D")])])])
        "team" [] = Except.ok (code, [("a", "B")])) ∧
    importLinesOf [("a", "B")] = ["from a import B"] ∧
    ("c", "D") ∉ [("a", "B")] :=
  ⟨by decide, ⟨_, rfl⟩, rfl, by decide⟩

/-- C1 (amended): only the root's provider reaches the imports.  On every
successful emission started with the pipeline's empty import set, the set
of imports is exactly the root provider's `(module, class)` pair, the
grouped imports are exactly one statement naming that class, and — when no
template is registered for the root provider — the class name used in the
fallback body code is that imported symbol.  Strings collected from nested
`"provider"` keys are discarded and need not appear in any import. -/
theorem c1_amended (reg : List (String × Template)) (spec : PyVal) (var code : String)
    (impset : List (String × String))
    (h : emit_builder reg spec var [] = Except.ok (code, impset)) :
    ∃ kvs p m c, spec = PyVal.dict kvs ∧
      dictGet kvs "provider" = Option.some (PyVal.str p) ∧
      split_provider p = Except.ok (m, c) ∧
      impset = [(m, c)] ∧
      importLinesOf impset = ["from " ++ m ++ " import " ++ c] ∧
      (findTemplate reg p = Option.none →
        code = var ++ " = " ++ c ++ ".load_component(" ++
          dict_to_python_literal spec ++ ")") := by
  obtain ⟨kvs, p, m, c, hs, hp, hsp, himps, hfb, _⟩ :=
    emit_builder_ok_shape reg spec var [] code impset h
  refine ⟨kvs, p, m, c, hs, hp, hsp, ?_, ?_, hfb⟩
  · rw [himps]
    rfl
  · rw [himps, show setAdd ([] : List (String × String)) (m, c) = [(m, c)] from rfl,
      importLinesOf_singleton]

/-- Witness for C1 (amended): a concrete root `a.B` with the repository's
empty registry. -/
theorem c1_witness :
    ∃ kvs p m c,
      (PyVal.dict [("provider", PyVal.str "a.B")]) = PyVal.dict kvs ∧
      dictGet kvs "provider" = Option.some (PyVal.str p) ∧
      split_provider p = Except.ok (m, c) ∧
      ([("a", "B")] : List (String × String)) = [(m, c)] ∧
      importLinesOf [("a", "B")] = ["from " ++ m ++ " import " ++ c] ∧
      (findTemplate EXPLICIT_CTORS p = Option.none →
        "team" ++ " = " ++ "B" ++ ".load_component(" ++
            dict_to_python_literal (PyVal.dict [("provider", PyVal.str "a.B")]) ++ ")" =
          "team" ++ " = " ++ c ++ ".load_component(" ++
            dict_to_python_literal (PyVal.dict [("provider", PyVal.str "a.B")]) ++ ")") :=
  c1_amended EXPLICIT_CTORS (PyVal.dict [("provider", PyVal.str "a.B")]) "team"
    ("team" ++ " = " ++ "B" ++ ".load_component(" ++
      dict_to_python_literal (PyVal.dict [("provider", PyVal.str "a.B")]) ++ ")")
    [("a", "B")] rfl

/-- C2 is false on the code in two ways.  (i) For the root input
`{"provider": "", "config": {}}` the pipeline raises `ValueError` — the
failed tuple unpacking of `rsplit` — not `ReferenceError` (though indeed
before any import line or body code is produced: the run yields an error
and no output).  (ii) An empty provider value in a NESTED map raises
nothing at all: the same pipeline succeeds on
`{"provider": "a.B", "config": {"provider": ""}}`. -/
theorem c2_counterexample :
    generate EXPLICIT_CTORS "config.json"
        (PyVal.dict [("provider", PyVal.str ""), ("config", PyVal.dict [])]) =
      Except.error
        (PyError.valueError "not enough values to unpack (expected 2, got 1)") ∧
    (∃ out, generate EXPLICIT_CTORS "config.json"
        (PyVal.dict [("provider", PyVal.str "a.B"),
          ("config", PyVal.dict [("provider", PyVal.str "")])]) = Except.ok out) :=
  ⟨rfl, ⟨_, rfl⟩⟩

/-- C2 (amended): restricted to the ROOT provider and with the error type
the code actually raises: whenever the root's provider string is empty or
contains no `"."` separator, the pipeline fails with
`ValueError: not enough values to unpack (expected 2, got 1)` (Python's
failed tuple unpacking inside `split_provider`) before any import line or
body code is produced — the run returns this error and no output text.
Malformed providers in nested maps cause no error, and `ReferenceError` is
never raised. -/
theorem c2_amended (reg : List (String × Template)) (jsonName : String)
    (kvs : List (String × PyVal)) (p : String)
    (hp : dictGet kvs "provider" = Option.some (PyVal.str p))
    (hsep : splitAtLastDot p.data = Option.none) :
    generate reg jsonName (PyVal.dict kvs) =
      Except.error
        (PyError.valueError "not enough values to unpack (expected 2, got 1)") := by
  have hsp : split_provider p =
      Except.error
        (PyError.valueError "not enough values to unpack (expected 2, got 1)") := by
    rw [split_provider, hsep]
  simp only [generate, emit_builder, hp, hsp]

/-- Witness for C2 (amended): the empty root provider of Example C. -/
theorem c2_witness :
    generate EXPLICIT_CTORS "config.json"
        (PyVal.dict [("provider", PyVal.str ""), ("config", PyVal.dict [])]) =
      Except.error
        (PyError.valueError "not enough values to unpack (expected 2, got 1)") :=
  c2_amended EXPLICIT_CTORS "config.json"
    [("provider", PyVal.str ""), ("config", PyVal.dict [])] "" rfl rfl

/-- C7 is false on the code: the fallback emits the literal of the ENTIRE
root spec, not of its `"config"` subtree.  For the root
`{"provider": "a.B", "config": {}}` (whose emitted literal is that of the
whole two-key dict) no decoded tree — a canonical tree rendering to that
literal — is deep-equal to the config subtree `{}`. -/
theorem c7_counterexample :
    (∃ impset, emit_builder EXPLICIT_CTORS
        (PyVal.dict [("provider", PyVal.str "a.B"), ("config", PyVal.dict [])])
        "team" [] =
      Except.ok
        ("team" ++ " = " ++ "B" ++ ".load_component(" ++
           dict_to_python_literal
             (PyVal.dict [("provider", PyVal.str "a.B"), ("config", PyVal.dict [])]) ++
           ")",
         impset)) ∧
    ¬ ∃ u, Decodes (dict_to_python_literal
        (PyVal.dict [("provider", PyVal.str "a.B"), ("config", PyVal.dict [])])) u ∧
      DeepEqual u (PyVal.dict []) := by
  constructor
  · exact ⟨_, rfl⟩
  · rintro ⟨u, ⟨hcanon, hlit⟩, hdeep⟩
    have hdeep2 : canon u = canon (PyVal.dict []) := hdeep
    have hu : u = PyVal.dict [] := hcanon.symm.trans hdeep2
    rw [hu] at hlit
    have hne : dict_to_python_literal (PyVal.dict []) ≠
        dict_to_python_literal
          (PyVal.dict [("provider", PyVal.str "a.B"), ("config", PyVal.dict [])]) := by
      decide
    exact hne hlit

/-- C7 (amended): for every root ComponentSpec taking the no-template
fallback path, the literal emitted in the assignment statement decodes — a
canonical tree rendering to exactly that text exists — to a tree deep-equal
to the ENTIRE original spec, of which the `"config"` subtree is one entry. -/
theorem c7_amended (reg : List (String × Template)) (kvs : List (String × PyVal))
    (var p m c : String)
    (hp : dictGet kvs "provider" = Option.some (PyVal.str p))
    (hsplit : split_provider p = Except.ok (m, c))
    (hreg : findTemplate reg p = Option.none) :
    emit_builder reg (PyVal.dict kvs) var [] =
      Except.ok
        (var ++ " = " ++ c ++ ".load_component(" ++
           dict_to_python_literal (PyVal.dict kvs) ++ ")",
         [(m, c)]) ∧
    ∃ u, Decodes (dict_to_python_literal (PyVal.dict kvs)) u ∧
      DeepEqual u (PyVal.dict kvs) := by
  refine ⟨?_, canon (PyVal.dict kvs), ⟨canon_canon _, literal_canon _⟩, canon_canon _⟩
  simp only [emit_builder, hp, hsplit, hreg]
  rfl

/-- Witness for C7 (amended): the Example A-style root `a.B`. -/
theorem c7_witness :
    emit_builder EXPLICIT_CTORS
        (PyVal.dict [("provider", PyVal.str "a.B"), ("config", PyVal.dict [])])
        "team" [] =
      Except.ok
        ("team" ++ " = " ++ "B" ++ ".load_component(" ++
           dict_to_python_literal
             (PyVal.dict [("provider", PyVal.str "a.B"), ("config", PyVal.dict [])]) ++
           ")",
         [("a", "B")]) ∧
    ∃ u, Decodes (dict_to_python_literal
        (PyVal.dict [("provider", PyVal.str "a.B"), ("config", PyVal.dict [])])) u ∧
      DeepEqual u (PyVal.dict [("provider", PyVal.str "a.B"), ("config", PyVal.dict [])]) :=
  c7_amended EXPLICIT_CTORS [("provider", PyVal.str "a.B"), ("config", PyVal.dict [])]
    "team" "a.B" "a" "B" rfl rfl rfl

/-- C8 is false on the code: the emitter (`pprint.pformat`) never raises.
A tree containing a scalar outside {string, number, boolean, null} — here
an arbitrary object carried by its repr — is rendered to text rather than
rejected with LiteralEmitError. -/
theorem c8_counterexample :
    scalarsInJsonSet (PyVal.list [PyVal.other "<object object at 0x0>"]) = false ∧
    dict_to_python_literal (PyVal.list [PyVal.other "<object object at 0x0>"]) =
      "[<object object at 0x0>]" :=
  ⟨rfl, rfl⟩

/-- C8 (amended): the emitter never fails.  On every tree whose scalars all
lie in {string, number, boolean, null} it succeeds and agrees with the
specification's §4.4 emitter `render_literal_spec` (the one that would
raise LiteralEmitError); a scalar outside the set is likewise rendered —
via its repr — instead of raising. -/
theorem c8_amended (t : PyVal) :
    (scalarsInJsonSet t = true →
      render_literal_spec t = Except.ok (dict_to_python_literal t)) ∧
    (∀ r, dict_to_python_literal (PyVal.other r) = r) :=
  ⟨render_spec_agrees t, fun _ => rfl⟩

/-- Witness for C8 (amended): a concrete all-JSON tree. -/
theorem c8_witness :
    render_literal_spec (PyVal.dict [("a", PyVal.int 1), ("b", PyVal.list [PyVal.null])]) =
      Except.ok (dict_to_python_literal
        (PyVal.dict [("a", PyVal.int 1), ("b", PyVal.list [PyVal.null])])) :=
  (c8_amended (PyVal.dict [("a", PyVal.int 1), ("b", PyVal.list [PyVal.null])])).1 rfl

end JsonGen
